import Mathlib

/-!
Shallow embedding of `src/data_collection/fetch_reviews.py` (module
`fetch_reviews`, class `ReviewFetcher`), the fetch-normalize-classify
pipeline for consumer app-store reviews.

Modelling conventions:
* pandas DataFrames of review rows become Lean lists of records;
* review payloads irrelevant to a claim (the opaque review objects
  returned by the upstream providers) are modelled as `Nat` ids;
* the upstream providers are scripted: a list of responses consumed one
  per call, mirroring the call-by-call behaviour of the real adapters;
* `time.sleep` calls are recorded in a `waits` trace (the slept duration,
  `delay` as an exact rational) instead of blocking;
* timestamps delivered by the adapters are already `datetime` objects
  (`at := Nat`), so `pd.to_datetime` is the identity on them, and every
  adapter record carries all five expected keys, so the schema
  (`missing_cols`) check of `_process_google_data` passes.
-/

set_option maxRecDepth 8000

namespace FetchReviews

/-- The constant `SECURITY_KEYWORDS` of `fetch_reviews.py` lines 48-54, verbatim. -/
def SECURITY_KEYWORDS : List String :=
  ["security", "privacy", "secure", "private", "data", "password",
   "login", "account", "hack", "breach", "steal", "fraud", "scam",
   "phishing", "malware", "virus", "encrypt", "decrypt", "biometric",
   "fingerprint", "face id", "two factor", "2fa", "authentication",
   "permissions", "access", "tracking", "surveillance", "leak"]

/-- Python-side value of a `score` cell before `pd.to_numeric`:
a numeric value (or numeric string) coercing to a rational, a
non-numeric string, or a missing/null cell. -/
inductive ScoreVal
  | num (q : ℚ)
  | nonNumeric
  | null
deriving DecidableEq

/-- Coercion `pd.to_numeric(df[score], errors=coerce)` on one cell: numeric values
survive, everything else becomes NaN (modelled as `none`). -/
def coerceScore : ScoreVal → Option ℚ
  | .num q => some q
  | .nonNumeric => none
  | .null => none

/-- One raw adapter record (`reviewId`, `userName`, `content`, `score`,
`at` = the keys built in `fetch_google_reviews` / `fetch_apple_reviews`).
`userName` and `content` cells may be null (`none`). -/
structure RawRecord where
  reviewId : String
  userName : Option String
  content : Option String
  score : ScoreVal
  at_ : Nat
deriving DecidableEq

/-- One row of the canonical output DataFrame produced by
`_process_google_data` / `_process_apple_data`. -/
structure CanonRow where
  reviewId : String
  userName : String
  content : String
  score : ℚ
  at_ : Nat
  platform : String
  fetched_at : Nat
  is_security_related : Bool
deriving DecidableEq

/-- Python `str.lower()` on review text, as the character list of the
lower-cased string. -/
def lowerChars (s : String) : List Char := s.data.map Char.toLower

/-- The classifier of lines 225-227:
`df[content].str.lower().str.contains(|.join(SECURITY_KEYWORDS), na=False)`.
The joined pattern contains no regex metacharacters, so the regex
alternation is exactly "some keyword occurs as a substring of the
lower-cased content"; `na=False` maps a null cell to `false`. -/
def isSecurityRelated : Option String → Bool
  | none => false
  | some s => SECURITY_KEYWORDS.any fun k => decide (k.data <:+: lowerChars s)

/-- Row-wise content of `_process_google_data` / `_process_apple_data`
lines 211-227: fill null `content` with `""` and null `userName` with
`"Anonymous"`, coerce the score, keep the row only when
`score.between(1, 5)` (NaN compares false), stamp `platform` and the
run-wide `fetched_at`, and classify the (already filled) content. -/
def normalizeRow (platform : String) (now : Nat) (r : RawRecord) : Option CanonRow :=
  let content := r.content.getD ""
  let userName := r.userName.getD "Anonymous"
  match coerceScore r.score with
  | none => none
  | some q =>
    if 1 ≤ q ∧ q ≤ 5 then
      some { reviewId := r.reviewId, userName := userName, content := content,
             score := q, at_ := r.at_, platform := platform, fetched_at := now,
             is_security_related := isSecurityRelated (some content) }
    else none

/-- The whole-DataFrame pipeline of `_process_google_data` /
`_process_apple_data` (identical but for the platform stamp): the
column-wise pandas operations act row-independently, so the result is the
row-wise normalizer mapped over the records, dropping filtered rows. -/
def processData (platform : String) (now : Nat) (rs : List RawRecord) : List CanonRow :=
  rs.filterMap (normalizeRow platform now)

/-- The dict `self.stats` of `ReviewFetcher.__init__`, field order as in the
source dict literal. -/
structure Stats where
  fetched : Nat
  errors : Nat
  security_related : Nat
deriving DecidableEq

/-- Method `_process_google_data`, with the stats side effect of line 229:
`self.stats[security_related] = df[is_security_related].sum()` - an
assignment of the count in the current frame, not an increment. -/
def processGoogleData (now : Nat) (rs : List RawRecord) (st : Stats) :
    List CanonRow × Stats :=
  let rows := processData "google" now rs
  (rows, { st with security_related := (rows.filter fun r => r.is_security_related).length })

/-- Method `_process_apple_data`, with the stats side effect of line 263
(same assignment as the Google variant). -/
def processAppleData (now : Nat) (rs : List RawRecord) (st : Stats) :
    List CanonRow × Stats :=
  let rows := processData "apple" now rs
  (rows, { st with security_related := (rows.filter fun r => r.is_security_related).length })

/-- One line logged by `ReviewFetcher.print_stats` (lines 301-310). -/
inductive StatLine
  | header
  | totalFetched (n : Nat)
  | securityRelated (n : Nat)
  | errorCount (n : Nat)
  | securityPct (pct : ℚ)
deriving DecidableEq

/-- Method `print_stats`: the four unconditional lines, then the security
percentage line only under the `if self.stats[fetched] > 0` guard. -/
def printStats (st : Stats) : List StatLine :=
  [.header, .totalFetched st.fetched, .securityRelated st.security_related,
   .errorCount st.errors]
  ++ (if st.fetched > 0 then
        [.securityPct ((st.security_related : ℚ) / (st.fetched : ℚ) * 100)]
      else [])

/-- The list `required_cols` of `_process_google_data` line 204. -/
def required_cols : List String :=
  ["reviewId", "userName", "content", "score", "at"]

/-- Column list of the DataFrame returned by `_process_google_data`
(line 231: `df[required_cols + [platform, fetched_at, is_security_related]]`). -/
def googleRawColumns : List String :=
  required_cols ++ ["platform", "fetched_at", "is_security_related"]

/-- Column list of the DataFrame returned by `_process_apple_data`
(lines 265-266). -/
def appleRawColumns : List String :=
  ["reviewId", "userName", "content", "score", "at",
   "platform", "fetched_at", "is_security_related"]

/-- Column list written as the raw output dataset according to the
words of the spec in section 6 (canonical field names). -/
def specRawColumns : List String :=
  ["review_id", "user_name", "content", "score", "created_at",
   "platform", "fetched_at", "is_security_related"]

/-- Column list of the processed dataset: the raw columns plus the two
derived columns added in `save_reviews` lines 291-292. -/
def processedColumns (raw : List String) : List String :=
  raw ++ ["content_length", "word_count"]

/-- Python `str.split()` with no separator: split on whitespace runs and
drop empty tokens; `word_count` is the length of that list. -/
def wordCount (s : String) : Nat :=
  ((s.split fun c => c.isWhitespace).filter fun t => !(t == "")).length

/-- One row of the processed DataFrame: a canonical row plus the two
derived cells of `save_reviews` lines 291-292. -/
structure ProcRow where
  row : CanonRow
  content_length : Nat
  word_count : Nat
deriving DecidableEq

/-- The two derived columns of `save_reviews`:
`content_length = df[content].str.len()` (character count) and
`word_count = df[content].str.split().str.len()`. -/
def addDerived (r : CanonRow) : ProcRow :=
  { row := r, content_length := r.content.length, word_count := wordCount r.content }

/-- A pandas DataFrame as a heap object: its rows plus whether the two
derived columns have been added to it.  `save_reviews` receives a
reference into a store of frames, so aliasing is explicit. -/
structure Frame where
  rows : List CanonRow
  derivedAdded : Bool
deriving DecidableEq

/-- Method `ReviewFetcher.save_reviews (df, filename, save_processed)` over an
explicit frame store: `df` is an index into `store`.  Following the
source: an empty frame saves nothing; otherwise the raw rows are written,
and when `save_processed` is set, `processed_df = df.copy()` allocates a
fresh frame at the end of the store, the two derived columns are added in
place to that copy only (`store.set`), and the rows of the copy are written as
the processed dataset.  Returns the final store, the rows written raw,
and the rows written processed. -/
def save_reviews (store : List Frame) (df : Nat) (save_processed : Bool) :
    List Frame × List CanonRow × List ProcRow :=
  match store.get? df with
  | none => (store, [], [])
  | some f =>
    if f.rows.isEmpty then (store, [], [])
    else if save_processed then
      let store1 := store ++ [f]
      let store2 := store1.set store.length { f with derivedAdded := true }
      (store2, f.rows, f.rows.map addDerived)
    else (store, f.rows, [])

/-- One scripted response of the `gp_reviews` provider: a result batch
with the next continuation token, or a raised exception. -/
inductive GoogleResp
  | ok (result : List Nat) (token : Option Nat)
  | exn
deriving DecidableEq

/-- State of the `fetch_google_reviews` loop, plus two observation
traces: each `gp_reviews` call as `(len(all_reviews) at call time,
batch_count requested)`, and each `time.sleep` duration. -/
structure GState where
  all_reviews : List Nat
  stats : Stats
  requests : List (Nat × Nat)
  waits : List ℚ
deriving DecidableEq

/-- The while loop `while len(all_reviews) < max_reviews` of
`fetch_google_reviews` (lines 88-124), one scripted provider response per
`gp_reviews` call: on success, an empty result breaks; otherwise the
batch is appended, `fetched` incremented by the batch length, the rate
limit `sleep(delay)` taken when `delay > 0`, and a `None` token breaks.
On an exception, `errors` is incremented, `sleep(delay * 2)` is taken,
and the loop continues (retrying with an unchanged collected count). -/
def googleLoop (batch_size max_reviews : Nat) (delay : ℚ) :
    List GoogleResp → GState → GState
  | [], st => st
  | resp :: rest, st =>
    if st.all_reviews.length < max_reviews then
      let batch_count := min batch_size (max_reviews - st.all_reviews.length)
      let st1 := { st with
        requests := st.requests ++ [(st.all_reviews.length, batch_count)] }
      match resp with
      | .exn =>
        googleLoop batch_size max_reviews delay rest
          { st1 with stats := { st1.stats with errors := st1.stats.errors + 1 },
                     waits := st1.waits ++ [delay * 2] }
      | .ok result token =>
        if result.isEmpty then st1
        else
          let st2 := { st1 with
            all_reviews := st1.all_reviews ++ result,
            stats := { st1.stats with fetched := st1.stats.fetched + result.length },
            waits := st1.waits ++ (if 0 < delay then [delay] else []) }
          if token.isNone then st2
          else googleLoop batch_size max_reviews delay rest st2
    else st

/-- Initial loop state: `all_reviews = []` and the fresh stats dict of
`ReviewFetcher.__init__`. -/
def initG : GState := { all_reviews := [], stats := ⟨0, 0, 0⟩, requests := [], waits := [] }

/-- One event of the `app.reviews()` iterator in `fetch_apple_reviews`:
a yielded review, or an exception raised during iteration. -/
inductive AppleEvent
  | item (r : Nat)
  | exn
deriving DecidableEq

/-- State of the `fetch_apple_reviews` loop: collected reviews, stats,
the `time.sleep` trace, and the running `enumerate` index. -/
structure AState where
  reviews : List Nat
  stats : Stats
  waits : List ℚ
  idx : Nat
deriving DecidableEq

/-- The for loop `for idx, review in enumerate(app.reviews())` of
`fetch_apple_reviews` (lines 155-186).  Each yielded item is first
checked against `max_reviews` (break), then appended with
`fetched += 1`, and `sleep(delay / 10)` is taken when `delay > 0` and
`idx % 10 == 0`.  An exception raised by the iterator propagates out of
the `for` loop to the `except` handler, which increments `errors` once;
there is no retry and no further sleep - iteration is over. -/
def appleLoop (max_reviews : Nat) (delay : ℚ) :
    List AppleEvent → AState → AState
  | [], st => st
  | .item r :: rest, st =>
    if st.reviews.length ≥ max_reviews then st
    else
      appleLoop max_reviews delay rest
        { st with
          reviews := st.reviews ++ [r],
          stats := { st.stats with fetched := st.stats.fetched + 1 },
          waits := st.waits ++
            (if 0 < delay ∧ st.idx % 10 = 0 then [delay / 10] else []),
          idx := st.idx + 1 }
  | .exn :: _, st =>
    { st with stats := { st.stats with errors := st.stats.errors + 1 } }

/-- Initial Apple loop state. -/
def initA : AState := { reviews := [], stats := ⟨0, 0, 0⟩, waits := [], idx := 0 }

/-! ### Theorems -/

/-- On a one-record frame, the pipeline output is the row-wise
result of the row-wise normalizer. -/
theorem processData_singleton (p : String) (now : Nat) (r : RawRecord) :
    processData p now [r] = (normalizeRow p now r).toList := by
  cases h : normalizeRow p now r <;> simp [processData, h]

/-- C1: a record survives normalization into the canonical output if and
only if its score coerces to a number in the closed interval [1, 5]; a
surviving row keeps exactly the coerced score (discarding, never
clamping). -/
theorem score_filter_retains_iff (p : String) (now : Nat) (r : RawRecord) :
    (processData p now [r] ≠ [] ↔
      ∃ q, coerceScore r.score = some q ∧ 1 ≤ q ∧ q ≤ 5)
    ∧ ∀ row ∈ processData p now [r], coerceScore r.score = some row.score := by
  rw [processData_singleton]
  unfold normalizeRow
  constructor
  · cases hq : coerceScore r.score with
    | none => simp
    | some q =>
      by_cases h15 : 1 ≤ q ∧ q ≤ 5
      · simp [h15]
      · simp [h15]
  · intro row hrow
    split at hrow
    · simp at hrow
    · next q hq =>
      split at hrow
      · simp at hrow
        rw [hrow, hq]
      · simp at hrow

/-- C1 witness: a record with score 3 is retained, with score 3 in the
output row. -/
theorem score_filter_retains_iff_witness :
    coerceScore (RawRecord.mk "r1" (some "u") (some "nice") (.num 3) 0).score
      = some (CanonRow.mk "r1" "u" "nice" 3 0 "google" 7 false).score :=
  (score_filter_retains_iff "google" 7 (RawRecord.mk "r1" (some "u") (some "nice") (.num 3) 0)).2
    (CanonRow.mk "r1" "u" "nice" 3 0 "google" 7 false) (by decide)

/-- C2: the classifier returns true exactly when the lower-cased content
has some keyword of the fixed list as a substring; a null cell and the
empty string both classify as false (totally, never raising). -/
theorem classifier_keyword_iff (c : Option String) :
    (isSecurityRelated c = true ↔
      ∃ s, c = some s ∧ ∃ k ∈ SECURITY_KEYWORDS, k.data <:+: lowerChars s)
    ∧ isSecurityRelated none = false ∧ isSecurityRelated (some "") = false := by
  refine ⟨?_, rfl, by decide⟩
  cases c with
  | none => simp [isSecurityRelated]
  | some s => simp [isSecurityRelated, List.any_eq_true]

/-- C9: whether a record is kept does not change when its `userName` and
`content` are null, and every output row carries the defaults
`"Anonymous"` / `""` precisely when the cells were null. -/
theorem missing_fields_defaulted (p : String) (now : Nat) (r : RawRecord) :
    (processData p now [r] = [] ↔
      processData p now [{ r with userName := none, content := none }] = [])
    ∧ ∀ row ∈ processData p now [r],
        row.userName = r.userName.getD "Anonymous" ∧ row.content = r.content.getD "" := by
  rw [processData_singleton, processData_singleton]
  constructor
  · unfold normalizeRow
    cases hq : coerceScore r.score with
    | none => simp
    | some q => by_cases h15 : 1 ≤ q ∧ q ≤ 5 <;> simp [h15]
  · intro row hrow
    unfold normalizeRow at hrow
    split at hrow
    · simp at hrow
    · split at hrow
      · simp at hrow
        rw [hrow]
        exact ⟨rfl, rfl⟩
      · simp at hrow

/-- C9 witness: a record with both cells null and score 5 is retained,
with `userName = "Anonymous"` and `content = ""`. -/
theorem missing_fields_defaulted_witness :
    (CanonRow.mk "r2" "Anonymous" "" 5 0 "apple" 3 false).userName
        = (Option.none).getD "Anonymous"
    ∧ (CanonRow.mk "r2" "Anonymous" "" 5 0 "apple" 3 false).content
        = (Option.none).getD "" :=
  (missing_fields_defaulted "apple" 3 (RawRecord.mk "r2" none none (.num 5) 0)).2
    (CanonRow.mk "r2" "Anonymous" "" 5 0 "apple" 3 false) (by decide)

/-- First scripted dataset for the stats-overwrite counterexample: one
security-related review ("hack"). -/
def datasetA : List RawRecord := [⟨"g1", some "alice", some "hack", .num 5, 0⟩]

/-- Second scripted dataset: one review with no security keyword. -/
def datasetB : List RawRecord := [⟨"g2", some "bob", some "nice", .num 4, 0⟩]

/-- C8 counterexample: processing a dataset with one flagged row and then
one with none leaves `security_related = 0`, not the sum `1 + 0 = 1`: the
counter is overwritten, not incremented. -/
theorem stats_overwrite_cex :
    ((processGoogleData 0 datasetA ⟨1, 0, 0⟩).2.security_related = 1)
    ∧ ((processGoogleData 0 datasetB
          (processGoogleData 0 datasetA ⟨1, 0, 0⟩).2).2.security_related = 0)
    ∧ ¬ ((processGoogleData 0 datasetB
          (processGoogleData 0 datasetA ⟨1, 0, 0⟩).2).2.security_related = 1 + 0) := by
  decide

/-- C8 amended: each classification run sets (overwrites)
`security_related` to the flagged-row count of the dataset just
processed, independently of the previous value of the counter; so after two
datasets the counter equals the count of the second dataset alone. -/
theorem stats_overwrite_amended (now : Nat) (rs : List RawRecord) (st st2 : Stats) :
    ((processGoogleData now rs st).2.security_related
      = ((processData "google" now rs).filter fun r => r.is_security_related).length)
    ∧ ((processGoogleData now rs st).2.security_related
      = (processGoogleData now rs st2).2.security_related)
    ∧ ((processAppleData now rs st).2.security_related
      = ((processData "apple" now rs).filter fun r => r.is_security_related).length) :=
  ⟨rfl, rfl, rfl⟩

/-- C6 counterexample: with `fetched = 0`, `print_stats` logs only the
four unconditional lines - the security percentage is omitted, not
reported as 0. -/
theorem stats_pct_omitted_cex :
    printStats ⟨0, 0, 0⟩
      = [.header, .totalFetched 0, .securityRelated 0, .errorCount 0]
    ∧ StatLine.securityPct 0 ∉ printStats ⟨0, 0, 0⟩ := by
  decide

/-- C6 amended: when `fetched > 0` the report contains the percentage
line with value `security_related / fetched * 100`; when `fetched = 0`
no percentage line appears at all (so no division is ever attempted). -/
theorem stats_pct_amended (st : Stats) :
    (0 < st.fetched →
      StatLine.securityPct ((st.security_related : ℚ) / (st.fetched : ℚ) * 100)
        ∈ printStats st)
    ∧ (st.fetched = 0 → ∀ q, StatLine.securityPct q ∉ printStats st) := by
  constructor
  · intro h
    simp [printStats, h]
  · intro h q
    simp [printStats, h]

/-- C6 witness: with 4 fetched and 2 security-related, the 50 percent
line is reported. -/
theorem stats_pct_amended_witness :
    StatLine.securityPct (((2 : Nat) : ℚ) / ((4 : Nat) : ℚ) * 100)
      ∈ printStats ⟨4, 0, 2⟩ :=
  (stats_pct_amended ⟨4, 0, 2⟩).1 (by norm_num)

/-- C7 counterexample: the raw output columns are the platform raw
names, not the canonical names the spec lists (`reviewId` versus
`review_id` in the first position). -/
theorem output_columns_cex : googleRawColumns ≠ specRawColumns := by
  decide

/-- C7 amended: both platforms return the same eight raw columns
`[reviewId, userName, content, score, at, platform, fetched_at,
is_security_related]` (the canonical fields under the section-6 naming
map), and the processed dataset adds exactly `content_length` (character
count of the content) and `word_count` (whitespace-split token count). -/
theorem output_columns_amended :
    googleRawColumns = ["reviewId", "userName", "content", "score", "at",
      "platform", "fetched_at", "is_security_related"]
    ∧ appleRawColumns = googleRawColumns
    ∧ processedColumns googleRawColumns
        = googleRawColumns ++ ["content_length", "word_count"]
    ∧ ∀ r : CanonRow, (addDerived r).content_length = r.content.length
        ∧ (addDerived r).word_count = wordCount r.content :=
  ⟨rfl, rfl, rfl, fun _ => ⟨rfl, rfl⟩⟩

/-- C10: `save_reviews` leaves every frame that existed before the call
untouched - in particular the frame the caller passed: the derived columns
are added only to the freshly-allocated copy. -/
theorem save_reviews_no_mutation (store : List Frame) (df : Nat) (sp : Bool)
    (i : Nat) (h : i < store.length) :
    (save_reviews store df sp).1[i]? = store[i]? := by
  unfold save_reviews
  cases hdf : store.get? df with
  | none => rfl
  | some f =>
    by_cases he : f.rows.isEmpty
    · simp [he]
    · cases sp with
      | false => simp [he]
      | true =>
        simp only [he, Bool.false_eq_true, if_false, if_true]
        rw [List.getElem?_set_ne (by omega)]
        rw [List.getElem?_append_left h]

/-- C10 witness: on a store holding one single-row frame, saving with
the processed output enabled leaves that frame unchanged. -/
theorem save_reviews_no_mutation_witness :
    (save_reviews [⟨[CanonRow.mk "r" "u" "c" 3 0 "google" 0 false], false⟩] 0 true).1[0]?
      = [(⟨[CanonRow.mk "r" "u" "c" 3 0 "google" 0 false], false⟩ : Frame)][0]? :=
  save_reviews_no_mutation [⟨[CanonRow.mk "r" "u" "c" 3 0 "google" 0 false], false⟩]
    0 true 0 (by decide)

/-- Every `gp_reviews` call recorded by the Google loop, starting from a
state whose request trace already satisfies the batch-size bound,
requests exactly `min batch_size (max_reviews - collected)`. -/
theorem googleLoop_requests_bound (bs mx : Nat) (d : ℚ) (script : List GoogleResp)
    (st : GState) (h : ∀ p ∈ st.requests, p.2 = min bs (mx - p.1)) :
    ∀ p ∈ (googleLoop bs mx d script st).requests, p.2 = min bs (mx - p.1) := by
  induction script generalizing st with
  | nil => simpa [googleLoop] using h
  | cons resp rest ih =>
    rw [googleLoop]
    by_cases hlen : st.all_reviews.length < mx
    · simp only [if_pos hlen]
      have hext : ∀ p ∈ st.requests ++
          [(st.all_reviews.length, min bs (mx - st.all_reviews.length))],
          p.2 = min bs (mx - p.1) := by
        intro p hp
        rcases List.mem_append.mp hp with h1 | h2
        · exact h p h1
        · rw [List.mem_singleton.mp h2]
      cases resp with
      | exn => exact ih _ hext
      | ok result token =>
        by_cases hres : result.isEmpty
        · simpa [hres] using hext
        · simp only [hres, Bool.false_eq_true, if_false]
          by_cases htok : token.isNone
          · simpa [htok] using hext
          · simpa [htok] using ih _ hext
    · simpa [if_neg hlen] using h

/-- Provider script for the concrete C3 run: a full batch of 200 with a
continuation token, then the remaining 50 with no token. -/
def script3 : List GoogleResp :=
  [.ok (List.replicate 200 0) (some 1), .ok (List.replicate 50 0) none]

/-- C3: every round of the token-based (Google) loop requests exactly
`min batch_size (max_reviews - collected_so_far)`; concretely, with
`max_reviews = 250` and `batch_size = 200` the recorded requests are 200
then exactly 50. -/
theorem google_batch_request_invariant :
    (∀ (bs mx : Nat) (d : ℚ) (script : List GoogleResp) p,
      p ∈ (googleLoop bs mx d script initG).requests → p.2 = min bs (mx - p.1))
    ∧ (googleLoop 200 250 0 script3 initG).requests = [(0, 200), (200, 50)] := by
  constructor
  · intro bs mx d script p hp
    exact googleLoop_requests_bound bs mx d script initG (by simp [initG]) p hp
  · decide

/-- C3 witness: the concrete second-round request of 50 is in the trace
and satisfies the bound. -/
theorem google_batch_request_invariant_witness :
    (200, 50) ∈ (googleLoop 200 250 0 script3 initG).requests
    ∧ ((200, 50) : Nat × Nat).2 = min 200 (250 - ((200, 50) : Nat × Nat).1) :=
  ⟨by decide,
   google_batch_request_invariant.1 200 250 0 script3 (200, 50) (by decide)⟩

/-- Provider script for the C4 run: a successful batch of 200, a raised
exception, then a successful batch of 50 ending the data. -/
def script4 : List GoogleResp :=
  [.ok (List.replicate 200 0) (some 1), .exn, .ok (List.replicate 50 1) none]

/-- C4: in the Google loop a single batch failure increments `errors` by
one, sleeps `delay * 2`, and retries the same round (the request of 50
is issued again with the collected count unchanged); the run ends with
`fetched` equal to the sum of the two successful batches and
`errors = 1`. -/
theorem google_transient_failure_retry (d : ℚ) (hd : 0 < d) :
    ((googleLoop 200 250 d script4 initG).stats.fetched = 200 + 50)
    ∧ ((googleLoop 200 250 d script4 initG).stats.errors = 1)
    ∧ ((googleLoop 200 250 d script4 initG).waits = [d, d * 2, d])
    ∧ ((googleLoop 200 250 d script4 initG).requests
        = [(0, 200), (200, 50), (200, 50)]) := by
  simp [googleLoop, script4, initG, hd]

/-- C4 witness: the run with delay 1. -/
theorem google_transient_failure_retry_witness :
    ((googleLoop 200 250 1 script4 initG).stats.fetched = 200 + 50)
    ∧ ((googleLoop 200 250 1 script4 initG).stats.errors = 1)
    ∧ ((googleLoop 200 250 1 script4 initG).waits = [1, 1 * 2, 1])
    ∧ ((googleLoop 200 250 1 script4 initG).requests
        = [(0, 200), (200, 50), (200, 50)]) :=
  google_transient_failure_retry 1 (by norm_num)

/-- Running the Apple loop over `xs` yielded items followed by a raised
exception: every item up to the limit is collected, then the handler
increments `errors` once and iteration is over - whatever follows the
exception is never consumed. -/
theorem appleLoop_exn_stops (mx : Nat) (d : ℚ) (xs : List Nat)
    (rest : List AppleEvent) (st : AState)
    (h : st.reviews.length + xs.length ≤ mx) :
    ((appleLoop mx d (xs.map .item ++ .exn :: rest) st).reviews = st.reviews ++ xs)
    ∧ ((appleLoop mx d (xs.map .item ++ .exn :: rest) st).stats.errors
        = st.stats.errors + 1)
    ∧ ((appleLoop mx d (xs.map .item ++ .exn :: rest) st).stats.fetched
        = st.stats.fetched + xs.length) := by
  induction xs generalizing st with
  | nil => simp [appleLoop]
  | cons x xs ih =>
    have hlt : ¬ st.reviews.length ≥ mx := by
      simp only [List.length_cons] at h
      omega
    have hrec := ih
      { st with
        reviews := st.reviews ++ [x],
        stats := { st.stats with fetched := st.stats.fetched + 1 },
        waits := st.waits ++ (if 0 < d ∧ st.idx % 10 = 0 then [d / 10] else []),
        idx := st.idx + 1 }
      (by simp only [List.length_append, List.length_cons, List.length_nil] at h ⊢; omega)
    rw [List.map_cons, List.cons_append, appleLoop, if_neg hlt]
    obtain ⟨h1, h2, h3⟩ := hrec
    refine ⟨?_, ?_, ?_⟩
    · rw [h1]
      simp
    · rw [h2]
    · rw [h3]
      simp only [List.length_cons]
      omega

/-- C5 counterexample: with the iterator yielding review 0, then
raising, then yielding review 1, the Apple fetch collects only [0],
counts one error, and takes no elevated `delay * 2` sleep: the failure
ends iteration instead of being retried. -/
theorem apple_failure_aborts_cex :
    ((appleLoop 10 1 [.item 0, .exn, .item 1] initA).reviews = [0])
    ∧ ((appleLoop 10 1 [.item 0, .exn, .item 1] initA).stats.errors = 1)
    ∧ (1 ∉ (appleLoop 10 1 [.item 0, .exn, .item 1] initA).reviews)
    ∧ ((2 : ℚ) ∉ (appleLoop 10 1 [.item 0, .exn, .item 1] initA).waits) := by
  refine ⟨?_, ?_, ?_, ?_⟩ <;> norm_num [appleLoop, initA]

/-- C5 amended: a single iteration failure in the Apple fetch increments
the error counter by one and ends iteration; the reviews collected
before the failure are kept (the run does not crash), but nothing after
the failure is collected - there is no elevated-delay wait and no retry
of the round. -/
theorem apple_failure_keeps_collected (mx : Nat) (d : ℚ) (xs : List Nat)
    (rest : List AppleEvent) (h : xs.length ≤ mx) :
    ((appleLoop mx d (xs.map .item ++ .exn :: rest) initA).reviews = xs)
    ∧ ((appleLoop mx d (xs.map .item ++ .exn :: rest) initA).stats.errors = 1)
    ∧ ((appleLoop mx d (xs.map .item ++ .exn :: rest) initA).stats.fetched
        = xs.length) := by
  have := appleLoop_exn_stops mx d xs rest initA (by simpa [initA] using h)
  simpa [initA] using this

/-- C5 amended witness: one collected review, then a failure, with one
further item never consumed. -/
theorem apple_failure_keeps_collected_witness :
    ((appleLoop 10 1 ([0].map .item ++ .exn :: [.item 1]) initA).reviews = [0])
    ∧ ((appleLoop 10 1 ([0].map .item ++ .exn :: [.item 1]) initA).stats.errors = 1)
    ∧ ((appleLoop 10 1 ([0].map .item ++ .exn :: [.item 1]) initA).stats.fetched
        = [0].length) :=
  apple_failure_keeps_collected 10 1 [0] [.item 1] (by decide)

end FetchReviews
